import Mathlib

/-!
Verification development for the SatelliteProcessor client's server-communication
core (`src/core/server_communicator.py`).  The remote channel (SSH `exec_command`,
SFTP) is modelled by explicit behaviour parameters; fallible steps are `Except`
values whose `.error` case stands for a raised exception at that step.  Machine
side effects on the remote filesystem are modelled as functions on an explicit
filesystem state.
-/

namespace SatProc

/-- JSON values as used by the job documents: strings and (ordered) objects.
Models the subset of Python `json` values that the job-queue documents use. -/
inductive Json where
  | str : String → Json
  | obj : List (String × Json) → Json
deriving Repr

mutual
/-- Boolean structural equality of JSON values (Python `==`/`!=` on parsed
documents is structural equality). -/
def Json.beq : Json → Json → Bool
  | .str a, .str b => a == b
  | .obj xs, .obj ys => Json.beqM xs ys
  | _, _ => false

/-- Boolean structural equality of member lists. -/
def Json.beqM : List (String × Json) → List (String × Json) → Bool
  | [], [] => true
  | (k, v) :: xs, (k', v') :: ys => k == k' && Json.beq v v' && Json.beqM xs ys
  | _, _ => false
end

/-- Field lookup on a JSON value: `doc[k]` in Python.  `none` models both the
`KeyError` (key absent) and the `TypeError` (value not a dict) cases. -/
def Json.getField : Json → String → Option Json
  | .obj kvs, k => kvs.lookup k
  | .str _, _ => none

/-- Python truthiness of a JSON value (`if status:`): empty strings and empty
dicts are falsy. -/
def Json.truthy : Json → Bool
  | .str s => s != ""
  | .obj kvs => !kvs.isEmpty

/-- Escape a character for a JSON string literal (`json.dumps` escaping of the
quote and backslash characters). -/
def escChar (c : Char) : List Char :=
  if c = '"' ∨ c = '\\' then ['\\', c] else [c]

/-- Escape a character list for a JSON string literal. -/
def escL : List Char → List Char
  | [] => []
  | c :: cs => escChar c ++ escL cs

/-- A quoted JSON string literal. -/
def quoteStr (s : String) : List Char :=
  '"' :: (escL s.data ++ ['"'])

mutual
/-- Serialize a JSON value (`json.dumps`; compact form — the source uses
`indent=2`, but whitespace is not part of the logical document). -/
def dumpJ : Json → List Char
  | .str s => quoteStr s
  | .obj kvs => '\x7b' :: (dumpFirst kvs ++ ['\x7d'])

/-- Serialize the member list of an object (first member has no leading comma). -/
def dumpFirst : List (String × Json) → List Char
  | [] => []
  | (k, v) :: kvs => quoteStr k ++ ':' :: dumpJ v ++ dumpMembers kvs

/-- Serialize the remaining members of an object, each with a leading comma. -/
def dumpMembers : List (String × Json) → List Char
  | [] => []
  | (k, v) :: kvs => ',' :: (quoteStr k ++ ':' :: dumpJ v ++ dumpMembers kvs)
end

/-- Serialization (the dumps function of the json library) at the String level. -/
def jsonDumps (j : Json) : String := String.mk (dumpJ j)

/-- Parse the body of a JSON string literal (after the opening quote); returns
the decoded characters and the rest of the input after the closing quote. -/
def parseStrBody : List Char → Option (List Char × List Char)
  | [] => none
  | c :: cs =>
    if c = '\\' then
      match cs with
      | [] => none
      | e :: cs' =>
        if e = '"' ∨ e = '\\' then (parseStrBody cs').map (fun p => (e :: p.1, p.2))
        else none
    else if c = '"' then some ([], cs)
    else (parseStrBody cs).map (fun p => (c :: p.1, p.2))

mutual
/-- Parse a JSON value (`json.loads`); fuel-indexed recursion, the fuel only
needs to dominate the nesting structure of the value. -/
def parseJ : Nat → List Char → Option (Json × List Char)
  | 0, _ => none
  | fuel + 1, cs =>
    match cs with
    | [] => none
    | c :: cs' =>
      if c = '"' then (parseStrBody cs').map (fun p => (Json.str (String.mk p.1), p.2))
      else if c = '\x7b' then
        match cs' with
        | [] => none
        | d :: r =>
          if d = '\x7d' then some (Json.obj [], r)
          else (parseMembers fuel (d :: r)).map (fun p => (Json.obj p.1, p.2))
      else none

/-- Parse a non-empty member list of a JSON object, up to and including the
closing brace. -/
def parseMembers : Nat → List Char → Option (List (String × Json) × List Char)
  | 0, _ => none
  | fuel + 1, cs =>
    match cs with
    | [] => none
    | c :: cs' =>
      if c = '"' then
        match parseStrBody cs' with
        | none => none
        | some (k, r₁) =>
          match r₁ with
          | [] => none
          | c₁ :: r₂ =>
            if c₁ = ':' then
              match parseJ fuel r₂ with
              | none => none
              | some (v, r₃) =>
                match r₃ with
                | [] => none
                | c₂ :: r₄ =>
                  if c₂ = ',' then
                    (parseMembers fuel r₄).map (fun p => ((String.mk k, v) :: p.1, p.2))
                  else if c₂ = '\x7d' then some ([(String.mk k, v)], r₄)
                  else none
            else none
      else none
end

mutual
/-- Structural size of a JSON value, used as a fuel bound for the parser. -/
def szJ : Json → Nat
  | .str _ => 1
  | .obj kvs => 1 + szM kvs

/-- Structural size of a member list. -/
def szM : List (String × Json) → Nat
  | [] => 0
  | (_, v) :: kvs => 1 + szJ v + szM kvs
end

/-- Parsing (the loads function of the json library) at the String level: parse
with ample fuel and require the whole input to be consumed. -/
def parseJson (s : String) : Option Json :=
  match parseJ (s.length + 1) s.data with
  | some (j, []) => some j
  | _ => none

/-! ### Lawfulness of the boolean equality and decidability -/

theorem Json.beq_iff_aux : ∀ n : Nat,
    (∀ a b : Json, szJ a ≤ n → (Json.beq a b = true ↔ a = b)) ∧
    (∀ xs ys : List (String × Json), szM xs ≤ n → (Json.beqM xs ys = true ↔ xs = ys)) := by
  intro n
  induction n with
  | zero =>
    constructor
    · intro a b h; cases a <;> simp [szJ] at h
    · intro xs ys h
      cases xs with
      | nil => cases ys <;> simp [Json.beqM]
      | cons p xs => obtain ⟨k, v⟩ := p; simp [szM] at h
  | succ n ih =>
    obtain ⟨ihJ, ihM⟩ := ih
    constructor
    · intro a b h
      cases a with
      | str s => cases b <;> simp [Json.beq]
      | obj xs =>
        cases b with
        | str t => simp [Json.beq]
        | obj ys =>
          simp only [Json.beq, Json.obj.injEq]
          exact ihM xs ys (by simp only [szJ] at h; omega)
    · intro xs ys h
      cases xs with
      | nil => cases ys <;> simp [Json.beqM]
      | cons p xs =>
        obtain ⟨k, v⟩ := p
        cases ys with
        | nil => simp [Json.beqM]
        | cons q ys =>
          obtain ⟨k', v'⟩ := q
          have h1 : szJ v ≤ n := by simp only [szM] at h; omega
          have h2 : szM xs ≤ n := by simp only [szM] at h; omega
          simp only [Json.beqM, Bool.and_eq_true, beq_iff_eq, List.cons.injEq, Prod.mk.injEq,
            ihJ v v' h1, ihM xs ys h2]

theorem Json.beq_iff (a b : Json) : Json.beq a b = true ↔ a = b :=
  (Json.beq_iff_aux (szJ a)).1 a b (Nat.le_refl _)

instance : DecidableEq Json := fun a b => decidable_of_iff _ (Json.beq_iff a b)

/-! ### Round-trip of the JSON codec -/

theorem parseStrBody_round : ∀ (s rest : List Char),
    parseStrBody (escL s ++ '"' :: rest) = some (s, rest) := by
  intro s
  induction s with
  | nil =>
    intro rest
    simp only [escL, List.nil_append]
    rw [parseStrBody.eq_def]
    simp
  | cons c cs ih =>
    intro rest
    by_cases hc : c = '"' ∨ c = '\\'
    · simp only [escL, escChar, if_pos hc, List.cons_append, List.append_assoc]
      simp [parseStrBody, hc, ih]
    · have h1 : ¬ c = '"' := fun h => hc (Or.inl h)
      have h2 : ¬ c = '\\' := fun h => hc (Or.inr h)
      simp only [escL, escChar, if_neg hc, List.cons_append, List.nil_append]
      rw [parseStrBody.eq_def]
      simp [h1, h2, ih]

theorem stringMkData (s : String) : String.mk s.data = s := rfl

theorem parse_dump_aux : ∀ n : Nat,
    (∀ (j : Json) (rest : List Char), szJ j ≤ n →
      parseJ n (dumpJ j ++ rest) = some (j, rest)) ∧
    (∀ (k : String) (v : Json) (kvs : List (String × Json)) (rest : List Char),
      szM ((k, v) :: kvs) ≤ n →
      parseMembers n (quoteStr k ++ ':' :: dumpJ v ++ dumpMembers kvs ++ '\x7d' :: rest)
        = some ((k, v) :: kvs, rest)) := by
  intro n
  induction n with
  | zero =>
    constructor
    · intro j rest h; cases j <;> simp [szJ] at h
    · intro k v kvs rest h; simp [szM] at h
  | succ n ih =>
    obtain ⟨ihJ, ihM⟩ := ih
    constructor
    · intro j rest h
      cases j with
      | str s =>
        simp only [dumpJ, quoteStr, List.cons_append, List.append_assoc]
        simp [parseJ, parseStrBody_round, stringMkData]
      | obj kvs =>
        cases kvs with
        | nil => simp [dumpJ, dumpFirst, parseJ]
        | cons p kvs =>
          obtain ⟨k, v⟩ := p
          have hm : szM ((k, v) :: kvs) ≤ n := by simp only [szJ] at h; omega
          have hrec := ihM k v kvs rest hm
          simp only [dumpJ, dumpFirst, quoteStr, List.cons_append, List.nil_append,
            List.append_assoc, List.append_nil] at hrec ⊢
          simp [parseJ, hrec]
    · intro k v kvs rest h
      have hv : szJ v ≤ n := by simp only [szM] at h; omega
      have hrecV := ihJ v (dumpMembers kvs ++ '\x7d' :: rest) hv
      simp only [quoteStr, List.cons_append, List.nil_append, List.append_assoc]
      rw [parseMembers]
      simp only [if_pos rfl, parseStrBody_round, stringMkData]
      cases kvs with
      | nil =>
        simp only [dumpMembers, List.nil_append] at hrecV ⊢
        simp [hrecV]
      | cons q kvs =>
        obtain ⟨k₂, v₂⟩ := q
        have hm₂ : szM ((k₂, v₂) :: kvs) ≤ n := by simp only [szM] at h ⊢; omega
        have hrecM := ihM k₂ v₂ kvs rest hm₂
        simp only [dumpMembers, quoteStr, List.cons_append, List.nil_append,
          List.append_assoc] at hrecV hrecM ⊢
        simp [hrecV, hrecM]

/-- Serializing any job-document JSON value and parsing it back yields the same
value (the codec is lossless). -/
theorem parseJson_dumps (j : Json) : parseJson (jsonDumps j) = some j := by
  have hsz : ∀ m, (∀ x : Json, szJ x ≤ m → szJ x ≤ (dumpJ x).length) ∧
      (∀ kvs : List (String × Json),
        szM kvs ≤ m → szM kvs ≤ (dumpFirst kvs).length + 1 ∧
          szM kvs ≤ (dumpMembers kvs).length) := by
    intro m
    induction m with
    | zero =>
      constructor
      · intro x hx; cases x <;> simp [szJ] at hx
      · intro kvs hk
        cases kvs with
        | nil => simp [szM, dumpFirst, dumpMembers]
        | cons p kvs => obtain ⟨k, v⟩ := p; simp [szM] at hk
    | succ m ih =>
      obtain ⟨ihJ, ihM⟩ := ih
      constructor
      · intro x hx
        cases x with
        | str s => simp [szJ, dumpJ, quoteStr]
        | obj kvs =>
          have := (ihM kvs (by simp only [szJ] at hx; omega)).1
          simp only [szJ, dumpJ, List.length_cons, List.length_append] at *
          omega
      · intro kvs hk
        cases kvs with
        | nil => simp [szM, dumpFirst, dumpMembers]
        | cons p kvs =>
          obtain ⟨k, v⟩ := p
          have h1 := ihJ v (by simp only [szM] at hk; omega)
          have h2 := (ihM kvs (by simp only [szM] at hk; omega)).2
          constructor <;>
            simp only [szM, dumpFirst, dumpMembers, quoteStr, List.length_append,
              List.length_cons] <;> omega
  have hb : szJ j ≤ (jsonDumps j).length + 1 := by
    have := (hsz (szJ j)).1 j (Nat.le_refl _)
    have hlen : (jsonDumps j).length = (dumpJ j).length := rfl
    omega
  have hr := (parse_dump_aux ((jsonDumps j).length + 1)).1 j [] hb
  simp only [List.append_nil] at hr
  have hdata : (jsonDumps j).data = dumpJ j := rfl
  rw [parseJson, hdata, hr]

/-! ### Remote filesystem and path model -/

/-- A remote path, as a list of components (the source builds slash-joined
strings; component lists keep the `rm -rf` subtree semantics explicit). -/
abbrev Path := List String

/-- The simulated remote filesystem: maps a path to the content of the file
there, if any. -/
abbrev Fs := Path → Option String

/-- Effect of `rm -rf p`: removes `p` and everything below it. -/
def rmRf (p : Path) (fs : Fs) : Fs :=
  fun q => if p <+: q then none else fs q

/-- Effect of `rm -f p`: removes exactly the file `p`. -/
def rmF (p : Path) (fs : Fs) : Fs :=
  fun q => if q = p then none else fs q

/-- Remote path of the job result tree, base/results/jobId (source line 226). -/
def resultsTree (base : Path) (jid : String) : Path := base ++ ["results", jid]

/-- Remote path of the completed-queue document, base/jobs/completed/jobId.json
(source line 227). -/
def completedDocPath (base : Path) (jid : String) : Path :=
  base ++ ["jobs", "completed", jid ++ ".json"]

/-- Model of the cleanup_job method (source lines 221-241): the state effect on the remote
filesystem of the two issued deletions, `rm -rf <base>/results/<job_id>` and
`rm -f <base>/jobs/completed/<job_id>.json`. -/
def cleanup_job (base : Path) (jid : String) (fs : Fs) : Fs :=
  rmF (completedDocPath base jid) (rmRf (resultsTree base jid) fs)

/-- Return value of `cleanup_job` (source lines 221-241): `True` unless an
exception was raised; stderr output only produces warnings. -/
def cleanup_job_ok (channel : Except Unit Unit) : Bool :=
  match channel with
  | .ok _ => true
  | .error _ => false

/-! ### Status lookup -/

/-- The four status directories, in the probe order of the source (line 141). -/
def statusDirs : List String := ["pending", "running", "completed", "failed"]

/-- The probe loop of `get_job_status` (source lines 141-152): `read d` models
`exec_command("cat <base>/jobs/<d>/<job_id>.json 2>/dev/null")` — `.ok content`
is the captured stdout (empty when the file is missing), `.error` a raised
exception, which the enclosing handler turns into `None`; likewise a
`json.loads` failure on non-empty content. -/
def get_job_status_aux (read : String → Except Unit String) : List String → Option Json
  | [] => none
  | d :: ds =>
    match read d with
    | .error _ => none
    | .ok content =>
      if content = "" then get_job_status_aux read ds
      else
        match parseJson content with
        | some doc => some doc
        | none => none

/-- Model of the get_job_status method (source lines 137-156); the probed job id
is implicit in the read behaviour. -/
def get_job_status (read : String → Except Unit String) : Option Json :=
  get_job_status_aux read statusDirs

/-- A simulated job queue holding, for each status directory, at most one
serialized document for the probed job (and no raised channel errors). -/
def queueRead (a : String → Option Json) : String → Except Unit String :=
  fun d => .ok (match a d with | some doc => jsonDumps doc | none => "")

/-! ### Job submission and the Launcher Guard -/

/-- Events issued to the batch scheduler by the Launcher Guard. -/
inductive GuardEv where
  | query
  | sbatch
deriving DecidableEq, Repr

/-- Model of the ensure-processor-running guard (source lines 243-267, the
method whose name carries a leading underscore): queries the scheduler
(`squeue -u vdidur -n satproc_job -h | wc -l`) and submits the worker script
exactly when the reported count is zero.  `squeue = .error` models a raised
exception in the query step (including a non-integer `wc -l` output), caught
inside the method. -/
def ensure_processor_running (squeue : Except Unit Nat) : List GuardEv :=
  match squeue with
  | .error _ => [GuardEv.query]
  | .ok n => if n = 0 then [GuardEv.query, GuardEv.sbatch] else [GuardEv.query]

/-- Update of a Python dict entry `d[k] = v`: replaces the value in place if the
key exists, otherwise appends the new key at the end. -/
def setPairs (k : String) (v : Json) : List (String × Json) → List (String × Json)
  | [] => [(k, v)]
  | (k', v') :: rest => if k' = k then (k, v) :: rest else (k', v') :: setPairs k v rest

/-- The credentials sub-object added by `submit_job` (source lines 97-101). -/
def credentialsJson (username password : String) : Json :=
  .obj [("username", .str username), ("password", .str password)]

/-- The job id composed as function_timestamp_uuidsuffix (source line 94). -/
def jobIdOf (function now uuidHex : String) : String :=
  function ++ "_" ++ now ++ "_" ++ uuidHex

/-- The job document built by `submit_job` (source lines 104-110). -/
def buildJobData (jid function : String) (parameters : Json) (submittedTime : String) : Json :=
  .obj [("job_id", .str jid), ("function", .str function), ("parameters", parameters),
        ("status", .str "pending"), ("submitted_time", .str submittedTime)]

/-- Environment of one `submit_job` call: the collaborator-supplied values and
the remote channel's behaviour at each step. -/
structure SubmitEnv where
  username : String
  password : String
  nowId : String
  nowIso : String
  uuidHex : String
  writeErr : Except Unit String
  squeue : Except Unit Nat

/-- Observable outcome of one `submit_job` call. -/
structure SubmitResult where
  jobId : Option String
  parameters : List (String × Json)
  written : Option String
  guard : List GuardEv
deriving Repr

/-- Model of the submit_job method (source lines 81-135).  The credential insertion mutates the
caller's `parameters` dict before the remote write; a non-empty stderr from the
write, or a raised exception (`writeErr = .error`), returns `None` before the
Launcher Guard is reached. -/
def submit_job (env : SubmitEnv) (function : String)
    (parameters : List (String × Json)) : SubmitResult :=
  let jid := jobIdOf function env.nowId env.uuidHex
  let parameters' :=
    setPairs "credentials" (credentialsJson env.username env.password) parameters
  let jobContent := jsonDumps (buildJobData jid function (.obj parameters') env.nowIso)
  match env.writeErr with
  | .error _ => { jobId := none, parameters := parameters', written := none, guard := [] }
  | .ok stderr =>
    if stderr = "" then
      { jobId := some jid, parameters := parameters', written := some jobContent,
        guard := ensure_processor_running env.squeue }
    else
      { jobId := none, parameters := parameters', written := some jobContent, guard := [] }

/-! ### Artifact retrieval -/

/-- Python `str.strip()`: removes leading and trailing whitespace. -/
def pyStrip (s : String) : String :=
  String.mk (((s.data.dropWhile Char.isWhitespace).reverse.dropWhile Char.isWhitespace).reverse)

/-- The per-file loop of `download_results` (source lines 185-205): counts the
files that actually land locally.  A falsy (empty-after-strip) line is skipped,
and a failed copy (`copyOk f = false` models a raised `sftp.get`/`mkdir`) is
logged and skipped without aborting the batch. -/
def download_count (copyOk : String → Bool) : List String → Nat
  | [] => 0
  | f :: fs =>
    (if pyStrip f ≠ "" ∧ copyOk (pyStrip f) then 1 else 0) + download_count copyOk fs

/-- Model of the download_results method (source lines 158-219).  Here
`dirMissing` models the
`"No such file"` check on the `ls` stderr; `files` is the `find` output split
on newlines (a single empty entry when empty); `sftpOk = false` a raised
SFTP-open step, caught
by the outer handler. -/
def download_results (dirMissing : Bool) (files : List String) (sftpOk : Bool)
    (copyOk : String → Bool) : Bool :=
  if dirMissing then false
  else if files = [] ∨ files = [""] then false
  else if !sftpOk then false
  else decide (0 < download_count copyOk files)

/-! ### The poll loop -/

/-- The terminal-status test of source line 294: membership of the status field
value in the completed/failed pair. -/
def terminalStatus (v : Json) : Bool :=
  v == Json.str "completed" || v == Json.str "failed"

/-- The poll loop of `wait_for_job` (source lines 282-300).  `source i` is the
document `get_job_status` returns at the i-th poll; `t` the elapsed wall-clock
seconds (each iteration sleeps 5 s); `last` the `last_status` variable.  The
first component is the outcome — `.error ()` models the uncaught
`KeyError`/`TypeError` of the status-field access when a changed document has
no status field — the second the documents passed to `progress_callback`, the
third the polled values.  `fuel` only bounds the recursion: `wait_for_job`
passes `timeout`, which always dominates the iteration count of the
`t < timeout` loop guard. -/
def wait_aux (source : Nat → Option Json) (timeout : Nat) :
    Nat → Nat → Nat → Option Json →
      Except Unit (Option Json) × List Json × List (Option Json)
  | 0, _, _, _ => (.ok none, [], [])
  | fuel + 1, i, t, last =>
    if t < timeout then
      match source i with
      | none =>
        let r := wait_aux source timeout fuel (i + 1) (t + 5) last
        (r.1, r.2.1, none :: r.2.2)
      | some st =>
        if !st.truthy then
          let r := wait_aux source timeout fuel (i + 1) (t + 5) last
          (r.1, r.2.1, some st :: r.2.2)
        else if some st = last then
          let r := wait_aux source timeout fuel (i + 1) (t + 5) last
          (r.1, r.2.1, some st :: r.2.2)
        else
          match st.getField "status" with
          | none => (.error (), [st], [some st])
          | some v =>
            if terminalStatus v then (.ok (some st), [st], [some st])
            else
              let r := wait_aux source timeout fuel (i + 1) (t + 5) (some st)
              (r.1, st :: r.2.1, some st :: r.2.2)
    else (.ok none, [], [])

/-- Model of the wait_for_job method (source lines 269-300). -/
def wait_for_job (source : Nat → Option Json) (timeout : Nat) :
    Except Unit (Option Json) × List Json × List (Option Json) :=
  wait_aux source timeout timeout 0 0 none

/-- The subsequence of polled values that the loop treats as changes: skips
absent and falsy documents and those equal to the last observed one.  The
progress hook is invoked exactly on this subsequence. -/
def changesOnly : Option Json → List (Option Json) → List Json
  | _, [] => []
  | last, none :: ps => changesOnly last ps
  | last, some d :: ps =>
    if !d.truthy then changesOnly last ps
    else if some d = last then changesOnly last ps
    else d :: changesOnly (some d) ps

/-! ### Session teardown -/

/-- Remote actions of session teardown. -/
inductive TeardownEv where
  | squeueList
  | scancel (slurmId : String)
  | closeCompute
  | closeGateway
deriving DecidableEq, Repr

/-- Model of the cleanup_server_jobs method (source lines 302-327): with no
compute channel it
returns immediately; otherwise it lists the caller's scheduler jobs matching
the worker job name (`squeue -u vdidur -n satproc_job -h -o '%i'`) and cancels
each non-blank id.  `.error` models a raised query, caught in the method. -/
def cleanup_server_jobs (computeConnected : Bool)
    (squeueIds : Except Unit (List String)) : List TeardownEv × Bool :=
  if !computeConnected then ([], true)
  else
    match squeueIds with
    | .error _ => ([TeardownEv.squeueList], false)
    | .ok ids =>
      (TeardownEv.squeueList ::
        (ids.filter (fun s => pyStrip s != "")).map TeardownEv.scancel, true)

/-- The effective `disconnect` (source lines 329-337; the later definition in
the class body shadows the earlier one at lines 74-79): session-scoped cleanup
first, then the channel closes. -/
def disconnect (computeConnected gatewayConnected : Bool)
    (squeueIds : Except Unit (List String)) : List TeardownEv :=
  (cleanup_server_jobs computeConnected squeueIds).1
    ++ (if computeConnected then [TeardownEv.closeCompute] else [])
    ++ (if gatewayConnected then [TeardownEv.closeGateway] else [])

/-- Model of the connect method (source lines 36-72): any exception in the
two-hop channel
establishment is caught and reported as `False`. -/
def connect (channel : Except Unit Unit) : Bool :=
  match channel with
  | .ok _ => true
  | .error _ => false

/-! ### Helper lemmas -/

theorem prefix_append_cancel {α : Type} (xs ys zs : List α) :
    (xs ++ ys <+: xs ++ zs) ↔ (ys <+: zs) := by
  constructor
  · rintro ⟨t, ht⟩
    exact ⟨t, by rw [List.append_assoc] at ht; exact List.append_cancel_left ht⟩
  · rintro ⟨t, ht⟩
    exact ⟨t, by rw [List.append_assoc, ht]⟩

theorem lookup_setPairs (k : String) (v : Json) (l : List (String × Json)) :
    (setPairs k v l).lookup k = some v := by
  induction l with
  | nil => simp [setPairs, List.lookup]
  | cons p rest ih =>
    obtain ⟨k', v'⟩ := p
    by_cases h : k' = k
    · simp [setPairs, h, List.lookup]
    · have : (k == k') = false := by simp [Ne.symm h]
      simp [setPairs, h, List.lookup, this, ih]

theorem jsonDumps_ne_empty (j : Json) : jsonDumps j ≠ "" := by
  cases j <;> simp [jsonDumps, dumpJ, quoteStr, String.ext_iff]

theorem getField_some_truthy {j v : Json} {k : String} (h : j.getField k = some v) :
    j.truthy = true := by
  cases j with
  | str s => simp [Json.getField] at h
  | obj kvs =>
    cases kvs with
    | nil => simp [Json.getField, List.lookup] at h
    | cons p rest => simp [Json.truthy]

/-! ### Claim theorems -/

/-- C1: `cleanup_job` issues deletions only against the job's own results
subtree `results/<job_id>` and its completed-queue document
`jobs/completed/<job_id>.json`: every other path of the simulated remote
filesystem — in particular any other job's result tree and every
`pending`/`running`/`failed` queue document — is unchanged by the call. -/
theorem cleanup_job_frame (base : Path) (jid jid' d : String) (tl : Path) (fs : Fs) (q : Path)
    (h1 : ¬ resultsTree base jid <+: q) (h2 : q ≠ completedDocPath base jid)
    (hjid : jid' ≠ jid) (hd : d ≠ "completed") :
    cleanup_job base jid fs q = fs q
    ∧ cleanup_job base jid fs (resultsTree base jid' ++ tl)
        = fs (resultsTree base jid' ++ tl)
    ∧ cleanup_job base jid fs (base ++ ["jobs", d, jid ++ ".json"])
        = fs (base ++ ["jobs", d, jid ++ ".json"]) := by
  refine ⟨?_, ?_, ?_⟩
  · simp [cleanup_job, rmF, rmRf, h1, h2]
  · have hp : ¬ resultsTree base jid <+: resultsTree base jid' ++ tl := by
      intro hcon
      rw [resultsTree, resultsTree, List.append_assoc, prefix_append_cancel] at hcon
      simp only [List.cons_append, List.nil_append, List.cons_prefix_cons] at hcon
      exact hjid (hcon.2.1.symm)
    have hq : resultsTree base jid' ++ tl ≠ completedDocPath base jid := by
      intro hcon
      rw [resultsTree, completedDocPath, List.append_assoc] at hcon
      have := List.append_cancel_left hcon
      simp at this
    simp [cleanup_job, rmF, rmRf, hp, hq]
  · have hp : ¬ resultsTree base jid <+: base ++ ["jobs", d, jid ++ ".json"] := by
      intro hcon
      rw [resultsTree, prefix_append_cancel, List.cons_prefix_cons] at hcon
      simp at hcon
    have hq : base ++ ["jobs", d, jid ++ ".json"] ≠ completedDocPath base jid := by
      intro hcon
      rw [completedDocPath] at hcon
      have := List.append_cancel_left hcon
      simp at this
      exact hd this
    simp [cleanup_job, rmF, rmRf, hp, hq]

/-- C1 witness: a concrete call, showing another job's result file, another
job's completed document, and this job's pending document untouched. -/
theorem cleanup_job_frame_witness :
    cleanup_job ["home"] "jobA" (fun _ => some "x") ["home", "results", "jobB", "out.bin"]
        = (fun _ : Path => some "x") ["home", "results", "jobB", "out.bin"]
    ∧ cleanup_job ["home"] "jobA" (fun _ => some "x") (resultsTree ["home"] "jobB" ++ ["out.bin"])
        = (fun _ : Path => some "x") (resultsTree ["home"] "jobB" ++ ["out.bin"])
    ∧ cleanup_job ["home"] "jobA" (fun _ => some "x") (["home"] ++ ["jobs", "pending", "jobA" ++ ".json"])
        = (fun _ : Path => some "x") (["home"] ++ ["jobs", "pending", "jobA" ++ ".json"]) :=
  ⟨(cleanup_job_frame ["home"] "jobA" "jobB" "pending" ["out.bin"] (fun _ => some "x")
      ["home", "results", "jobB", "out.bin"] (by decide) (by decide) (by decide) (by decide)).1,
   (cleanup_job_frame ["home"] "jobA" "jobB" "pending" ["out.bin"] (fun _ => some "x")
      ["home", "results", "jobB", "out.bin"] (by decide) (by decide) (by decide) (by decide)).2⟩

/-- C3: `get_job_status` probes the four status directories in the fixed order
`pending, running, completed, failed` against a simulated queue and returns the
parsed document of the first directory holding the job's file; absent (`None`)
when no directory holds it. -/
theorem get_job_status_probe_order (a : String → Option Json) :
    get_job_status (queueRead a)
      = (((a "pending").or (a "running")).or (a "completed")).or (a "failed") := by
  have step : ∀ (d : String) (ds : List String),
      get_job_status_aux (queueRead a) (d :: ds)
        = (a d).or (get_job_status_aux (queueRead a) ds) := by
    intro d ds
    cases h : a d with
    | none => simp [get_job_status_aux, queueRead, h, Option.or]
    | some doc =>
      simp [get_job_status_aux, queueRead, h, jsonDumps_ne_empty doc, parseJson_dumps,
        Option.or]
  rw [get_job_status, statusDirs, step, step, step, step]
  cases a "pending" <;> cases a "running" <;> cases a "completed" <;> cases a "failed" <;>
    simp [get_job_status_aux, Option.or]

/-- C8: the job document built by `submit_job` survives the serialize-parse
round trip losslessly: parsing the serialization yields the identical document,
whose `job_id`, `function`, `status`, and `parameters` fields — including the
nested `credentials` object — equal the originals. -/
theorem submit_job_roundtrip (env : SubmitEnv) (function : String)
    (parameters : List (String × Json)) :
    parseJson (jsonDumps (buildJobData (jobIdOf function env.nowId env.uuidHex) function
        (Json.obj (setPairs "credentials" (credentialsJson env.username env.password) parameters))
        env.nowIso))
      = some (buildJobData (jobIdOf function env.nowId env.uuidHex) function
          (Json.obj (setPairs "credentials" (credentialsJson env.username env.password) parameters))
          env.nowIso)
    ∧ (buildJobData (jobIdOf function env.nowId env.uuidHex) function
        (Json.obj (setPairs "credentials" (credentialsJson env.username env.password) parameters))
        env.nowIso).getField "job_id"
        = some (Json.str (jobIdOf function env.nowId env.uuidHex))
    ∧ (buildJobData (jobIdOf function env.nowId env.uuidHex) function
        (Json.obj (setPairs "credentials" (credentialsJson env.username env.password) parameters))
        env.nowIso).getField "function" = some (Json.str function)
    ∧ (buildJobData (jobIdOf function env.nowId env.uuidHex) function
        (Json.obj (setPairs "credentials" (credentialsJson env.username env.password) parameters))
        env.nowIso).getField "status" = some (Json.str "pending")
    ∧ (buildJobData (jobIdOf function env.nowId env.uuidHex) function
        (Json.obj (setPairs "credentials" (credentialsJson env.username env.password) parameters))
        env.nowIso).getField "parameters"
        = some (Json.obj (setPairs "credentials" (credentialsJson env.username env.password) parameters))
    ∧ (Json.obj (setPairs "credentials" (credentialsJson env.username env.password)
        parameters)).getField "credentials"
        = some (credentialsJson env.username env.password)
    ∧ (submit_job { env with writeErr := Except.ok "" } function parameters).written
        = some (jsonDumps (buildJobData (jobIdOf function env.nowId env.uuidHex) function
            (Json.obj (setPairs "credentials" (credentialsJson env.username env.password) parameters))
            env.nowIso)) := by
  refine ⟨parseJson_dumps _, ?_, ?_, ?_, ?_, ?_, ?_⟩
  · simp [buildJobData, Json.getField, List.lookup]
  · simp [buildJobData, Json.getField, List.lookup]
  · simp [buildJobData, Json.getField, List.lookup]
  · simp [buildJobData, Json.getField, List.lookup]
  · exact lookup_setPairs _ _ _
  · simp [submit_job]

/-- C10: `submit_job` mutates the caller's `parameters` dict in place, adding a
`credentials` key holding the plaintext username and password before
serialization, and the mutation persists in the returned (caller-visible)
dict on every path: on success, on a failed write, and on a raised
exception. -/
theorem submit_job_mutates_parameters (env : SubmitEnv) (function : String)
    (parameters : List (String × Json)) :
    (submit_job env function parameters).parameters
        = setPairs "credentials" (credentialsJson env.username env.password) parameters
    ∧ ((submit_job env function parameters).parameters).lookup "credentials"
        = some (credentialsJson env.username env.password)
    ∧ (submit_job { env with writeErr := Except.error () } function parameters).jobId = none
    ∧ (submit_job { env with writeErr := Except.error () } function parameters).parameters
        = setPairs "credentials" (credentialsJson env.username env.password) parameters := by
  have hparams : (submit_job env function parameters).parameters
      = setPairs "credentials" (credentialsJson env.username env.password) parameters := by
    rw [submit_job]
    cases env.writeErr with
    | error e => rfl
    | ok stderr => by_cases hs : stderr = "" <;> simp [hs]
  refine ⟨hparams, by rw [hparams]; exact lookup_setPairs _ _ _, rfl, rfl⟩

theorem download_count_eq_countP (copyOk : String → Bool) (files : List String) :
    download_count copyOk files = files.countP (fun f => pyStrip f != "" && copyOk (pyStrip f)) := by
  induction files with
  | nil => simp [download_count]
  | cons f fs ih =>
    rw [download_count, ih, List.countP_cons]
    by_cases h1 : pyStrip f = ""
    · simp [h1]
    · by_cases h2 : copyOk (pyStrip f) <;> simp [h1, h2] <;> omega

/-- C4: with the result directory present, `download_results` succeeds iff the
number of files successfully copied is positive; per-file copy failures are
skipped without aborting the remaining copies (the copied count is a sum over
the file list, each entry contributing independently), and when every copy
fails the operation reports failure. -/
theorem download_results_success_iff (files : List String) (copyOk : String → Bool)
    (xs ys : List String) :
    (download_results false files true copyOk = true ↔
        0 < files.countP (fun f => pyStrip f != "" && copyOk (pyStrip f)))
    ∧ download_count copyOk (xs ++ ys)
        = download_count copyOk xs + download_count copyOk ys
    ∧ download_results false files true (fun _ => false) = false := by
  have hc0 : ∀ gs : List String, download_count (fun _ => false) gs = 0 := by
    intro gs
    induction gs with
    | nil => rfl
    | cons g gs ih => simp [download_count, ih]
  have hps : pyStrip "" = "" := rfl
  refine ⟨?_, ?_, ?_⟩
  · by_cases hf : files = [] ∨ files = [""]
    · rcases hf with h | h <;> subst h <;> simp [download_results, hps]
    · simp [download_results, hf, download_count_eq_countP]
  · rw [download_count_eq_countP, download_count_eq_countP, download_count_eq_countP,
      List.countP_append]
  · by_cases hf : files = [] ∨ files = [""]
    · rcases hf with h | h <;> subst h <;> simp [download_results]
    · simp [download_results, hf, hc0]

/-- C6: in the event trace of the effective `disconnect`, the session-scoped
batch-scheduler cancellation (`cleanup_server_jobs`) precedes both channel
closes: every `scancel` event has a strictly smaller index than every close
event. -/
theorem disconnect_cancel_before_close (cc gc : Bool) (ids : Except Unit (List String))
    (i j : Nat) (s : String)
    (hi : (disconnect cc gc ids)[i]? = some (TeardownEv.scancel s))
    (hj : (disconnect cc gc ids)[j]? = some TeardownEv.closeCompute
        ∨ (disconnect cc gc ids)[j]? = some TeardownEv.closeGateway) :
    i < j := by
  have hd : disconnect cc gc ids = (cleanup_server_jobs cc ids).1
      ++ ((if cc then [TeardownEv.closeCompute] else [])
          ++ (if gc then [TeardownEv.closeGateway] else [])) := by
    rw [disconnect, List.append_assoc]
  have hAmem : ∀ ev ∈ (cleanup_server_jobs cc ids).1,
      ev ≠ TeardownEv.closeCompute ∧ ev ≠ TeardownEv.closeGateway := by
    intro ev hev
    unfold cleanup_server_jobs at hev
    by_cases hcc : cc
    · simp only [hcc, Bool.not_true, if_neg (by simp : ¬ (false = true))] at hev
      cases ids with
      | error e =>
        simp at hev
        subst hev
        exact ⟨by simp, by simp⟩
      | ok l =>
        simp at hev
        rcases hev with h | ⟨t, _, h⟩ <;> subst h <;> exact ⟨by simp, by simp⟩
    · simp [hcc] at hev
  have hBmem : ∀ ev, ev ∈ ((if cc then [TeardownEv.closeCompute] else [])
      ++ (if gc then [TeardownEv.closeGateway] else [])) →
      ev = TeardownEv.closeCompute ∨ ev = TeardownEv.closeGateway := by
    intro ev hev
    rcases List.mem_append.mp hev with h | h
    · left
      cases cc <;> simp at h <;> simp [h]
    · right
      cases gc <;> simp at h <;> simp [h]
  have hiA : i < (cleanup_server_jobs cc ids).1.length := by
    by_contra hle
    push_neg at hle
    rw [hd, List.getElem?_append_right hle] at hi
    have hmem := List.getElem?_eq_some.mp hi
    obtain ⟨hlt, he⟩ := hmem
    have : TeardownEv.scancel s ∈ ((if cc then [TeardownEv.closeCompute] else [])
        ++ (if gc then [TeardownEv.closeGateway] else [])) := he ▸ List.getElem_mem hlt
    rcases hBmem _ this with h | h <;> simp at h
  have hjA : (cleanup_server_jobs cc ids).1.length ≤ j := by
    by_contra hlt
    push_neg at hlt
    rw [hd, List.getElem?_append_left hlt] at hj
    rcases hj with h | h <;>
    · have hmem := List.getElem?_eq_some.mp h
      obtain ⟨hl, he⟩ := hmem
      have hin := he ▸ List.getElem_mem hl
      rcases hAmem _ hin with ⟨h1, h2⟩
      first
      | exact h1 rfl
      | exact h2 rfl
  omega

/-- C6 witness: a concrete disconnect trace with one cancelled job: the
`scancel` at index 1 precedes the compute-channel close at index 2. -/
theorem disconnect_cancel_before_close_witness :
    (disconnect true true (Except.ok ["123"]))[1]? = some (TeardownEv.scancel "123")
    ∧ 1 < 2 :=
  ⟨by decide,
   disconnect_cancel_before_close true true (Except.ok ["123"]) 1 2 "123" (by decide)
     (Or.inl (by decide))⟩

/-- C7 counterexample input: the job-file write reports a non-empty stderr, so
`submit_job` returns `None` before the Launcher Guard runs, even though the
scheduler reports zero running workers. -/
def envFailedWrite : SubmitEnv :=
  { username := "u", password := "p", nowId := "20240105_120000",
    nowIso := "2024-01-05T12:00:00", uuidHex := "abcd1234",
    writeErr := Except.ok "bash: redirect failed", squeue := Except.ok 0 }

/-- C7 counterexample: a `submit_job` call whose queue write fails issues no
scheduler events at all — the Launcher Guard is not triggered on this call, so
"every call to submit_job triggers the Launcher Guard" is false as stated. -/
theorem submit_job_guard_skipped_on_failed_write :
    (submit_job envFailedWrite "polar_circle" []).guard = []
    ∧ (submit_job envFailedWrite "polar_circle" []).jobId = none := by
  constructor <;> rfl

/-- C7 (amended): every `submit_job` call whose queue write succeeds (no
exception, empty stderr) triggers the Launcher Guard, which queries the
scheduler and submits a new worker job exactly when the query succeeds and
reports zero running workers matching the caller's identity and job name. -/
theorem submit_job_triggers_guard (env : SubmitEnv) (function : String)
    (parameters : List (String × Json)) (n : Nat)
    (hw : env.writeErr = Except.ok "") (hq : env.squeue = Except.ok n) :
    GuardEv.query ∈ (submit_job env function parameters).guard
    ∧ (GuardEv.sbatch ∈ (submit_job env function parameters).guard ↔ n = 0) := by
  have hg : (submit_job env function parameters).guard = ensure_processor_running env.squeue := by
    rw [submit_job, hw]
    simp
  rw [hg, hq, ensure_processor_running]
  by_cases hn : n = 0 <;> simp [hn]

/-- C7 witness: with a clean write and a zero worker count the guard queries
and submits; with a nonzero count it queries and does not submit. -/
theorem submit_job_triggers_guard_witness :
    GuardEv.query ∈ (submit_job { envFailedWrite with writeErr := Except.ok "" }
        "polar_circle" []).guard
    ∧ (GuardEv.sbatch ∈ (submit_job { envFailedWrite with writeErr := Except.ok "" }
        "polar_circle" []).guard ↔ 0 = 0) :=
  submit_job_triggers_guard { envFailedWrite with writeErr := Except.ok "" }
    "polar_circle" [] 0 rfl rfl

theorem wait_aux_calls_eq_changes (source : Nat → Option Json) (timeout : Nat) :
    ∀ (fuel i t : Nat) (last : Option Json),
      (wait_aux source timeout fuel i t last).2.1
        = changesOnly last (wait_aux source timeout fuel i t last).2.2 := by
  intro fuel
  induction fuel with
  | zero => intro i t last; rfl
  | succ fuel ih =>
    intro i t last
    rw [wait_aux]
    by_cases ht : t < timeout
    · rw [if_pos ht]
      cases hs : source i with
      | none =>
        simp only []
        rw [changesOnly]
        exact ih (i + 1) (t + 5) last
      | some st =>
        by_cases htr : st.truthy = true
        · simp only [htr, Bool.not_true, Bool.false_eq_true, if_false]
          by_cases hl : some st = last
          · rw [if_pos hl]
            simp only []
            rw [changesOnly]
            simp only [htr, Bool.not_true, Bool.false_eq_true, if_false, if_pos hl]
            exact ih (i + 1) (t + 5) last
          · rw [if_neg hl]
            cases hg : st.getField "status" with
            | none =>
              simp only []
              rw [changesOnly]
              simp only [htr, Bool.not_true, Bool.false_eq_true, if_false, if_neg hl,
                changesOnly]
            | some v =>
              by_cases hterm : terminalStatus v = true
              · simp only [hterm, if_true]
                rw [changesOnly]
                simp only [htr, Bool.not_true, Bool.false_eq_true, if_false, if_neg hl,
                  changesOnly]
              · simp only [hterm, Bool.false_eq_true, if_false]
                rw [changesOnly]
                simp only [htr, Bool.not_true, Bool.false_eq_true, if_false, if_neg hl]
                rw [ih (i + 1) (t + 5) (some st)]
        · have htr' : (!st.truthy) = true := by simp [Bool.not_eq_true] at htr ⊢; exact htr
          simp only [htr', if_true]
          rw [changesOnly]
          simp only [htr', if_true]
          exact ih (i + 1) (t + 5) last
    · rw [if_neg ht]; rfl

/-- At any loop state within the deadline, observing a changed truthy document
whose status field is the completed value or the failed value makes the loop
return that document at once: one final hook invocation, no further polls. -/
theorem wait_aux_terminal_step (source : Nat → Option Json) (timeout fuel i t : Nat)
    (last : Option Json) (d v : Json)
    (hg : t < timeout) (hs : source i = some d) (htr : d.truthy = true)
    (hl : ¬ (some d = last)) (hv : d.getField "status" = some v)
    (hterm : v = Json.str "completed" ∨ v = Json.str "failed") :
    wait_aux source timeout (fuel + 1) i t last
      = (Except.ok (some d), [d], [some d]) := by
  have htv : terminalStatus v = true := by
    rcases hterm with h | h <;> subst h <;> decide
  rw [wait_aux, if_pos hg, hs]
  simp only [htr, Bool.not_true, Bool.false_eq_true, if_false, if_neg hl, hv, htv, if_true]

/-- C2: the poll loop invokes the progress hook exactly on the polled documents
that differ (by full-document equality) from the last observed one — the hook
invocations always equal `changesOnly` of the poll trace — and it returns a
polled document immediately upon the first observation whose status field is
the completed or the failed value (the instantiable immediate-return law, last
conjunct).  For a source reporting the same `pending` document twice and then a
`completed` document it returns the completed document after three polls with
exactly two hook invocations (once per distinct document, the last being the
completed one, never re-invoked afterwards); for a source reporting `pending`
then `failed` it returns the failed document after two polls. -/
theorem wait_for_job_change_hook (p c cf : Json) (timeout : Nat)
    (src' : Nat → Option Json) (timeout' fuel' i' t' : Nat) (last' : Option Json)
    (src₂ : Nat → Option Json) (timeout₂ fuel₂ i₂ t₂ : Nat) (last₂ : Option Json) (d v : Json)
    (hp : p.getField "status" = some (Json.str "pending"))
    (hc : c.getField "status" = some (Json.str "completed"))
    (hcf : cf.getField "status" = some (Json.str "failed"))
    (hpc : p ≠ c) (hpcf : p ≠ cf) (ht : 10 < timeout)
    (hg₂ : t₂ < timeout₂) (hs₂ : src₂ i₂ = some d) (htr₂ : d.truthy = true)
    (hl₂ : ¬ (some d = last₂)) (hv₂ : d.getField "status" = some v)
    (hterm₂ : v = Json.str "completed" ∨ v = Json.str "failed") :
    wait_for_job (fun i => if i < 2 then some p else some c) timeout
      = (Except.ok (some c), [p, c], [some p, some p, some c])
    ∧ wait_for_job (fun i => if i < 1 then some p else some cf) timeout
      = (Except.ok (some cf), [p, cf], [some p, some cf])
    ∧ (wait_aux src' timeout' fuel' i' t' last').2.1
        = changesOnly last' (wait_aux src' timeout' fuel' i' t' last').2.2
    ∧ wait_aux src₂ timeout₂ (fuel₂ + 1) i₂ t₂ last₂
        = (Except.ok (some d), [d], [some d]) := by
  have htp : p.truthy = true := getField_some_truthy hp
  have htc : c.truthy = true := getField_some_truthy hc
  have htcf : cf.truthy = true := getField_some_truthy hcf
  have hterm_p : terminalStatus (Json.str "pending") = false := by decide
  have hterm_c : terminalStatus (Json.str "completed") = true := by decide
  have hterm_f : terminalStatus (Json.str "failed") = true := by decide
  refine ⟨?_, ?_, wait_aux_calls_eq_changes src' timeout' fuel' i' t' last',
    wait_aux_terminal_step src₂ timeout₂ fuel₂ i₂ t₂ last₂ d v hg₂ hs₂ htr₂ hl₂ hv₂ hterm₂⟩
  · obtain ⟨f, rfl⟩ : ∃ f, timeout = f + 3 := ⟨timeout - 3, by omega⟩
    rw [wait_for_job]
    rw [wait_aux]
    rw [if_pos (by omega : 0 < f + 3)]
    simp only [show ((0 : Nat) < 2) = True by simp, if_true]
    simp only [htp, Bool.not_true, Bool.false_eq_true, if_false,
      show (some p = (none : Option Json)) = False by simp, hp, hterm_p]
    rw [wait_aux]
    rw [if_pos (by omega : 0 + 5 < f + 3)]
    simp only [show ((1 : Nat) < 2) = True by simp, if_true]
    simp only [htp, Bool.not_true, Bool.false_eq_true, if_false, if_pos rfl]
    have hne : ¬ (some c = some p) := fun hcontra => hpc (Option.some.inj hcontra).symm
    rw [wait_aux]
    rw [if_pos (by omega : 0 + 5 + 5 < f + 3)]
    simp only [show ((2 : Nat) < 2) = False by simp, if_false]
    simp only [htc, Bool.not_true, Bool.false_eq_true, if_false, if_neg hne, hc, hterm_c,
      if_true]
  · obtain ⟨f, rfl⟩ : ∃ f, timeout = f + 2 := ⟨timeout - 2, by omega⟩
    rw [wait_for_job]
    rw [wait_aux]
    rw [if_pos (by omega : 0 < f + 2)]
    simp only [show ((0 : Nat) < 1) = True by simp, if_true]
    simp only [htp, Bool.not_true, Bool.false_eq_true, if_false,
      show (some p = (none : Option Json)) = False by simp, hp, hterm_p]
    have hne : ¬ (some cf = some p) := fun hcontra => hpcf (Option.some.inj hcontra).symm
    rw [wait_aux]
    rw [if_pos (by omega : 0 + 5 < f + 2)]
    simp only [show ((1 : Nat) < 1) = False by simp, if_false]
    simp only [htcf, Bool.not_true, Bool.false_eq_true, if_false, if_neg hne, hcf, hterm_f,
      if_true]

/-- C2 witness: the two concrete scenarios (pending, pending, completed and
pending, failed), the hook-on-change law at a concrete source, and the
immediate-terminal-return law at a concrete failed document. -/
theorem wait_for_job_change_hook_witness :
    wait_for_job (fun i => if i < 2
        then some (Json.obj [("status", Json.str "pending")])
        else some (Json.obj [("status", Json.str "completed")])) 3600
      = (Except.ok (some (Json.obj [("status", Json.str "completed")])),
         [Json.obj [("status", Json.str "pending")], Json.obj [("status", Json.str "completed")]],
         [some (Json.obj [("status", Json.str "pending")]),
          some (Json.obj [("status", Json.str "pending")]),
          some (Json.obj [("status", Json.str "completed")])])
    ∧ wait_for_job (fun i => if i < 1
        then some (Json.obj [("status", Json.str "pending")])
        else some (Json.obj [("status", Json.str "failed")])) 3600
      = (Except.ok (some (Json.obj [("status", Json.str "failed")])),
         [Json.obj [("status", Json.str "pending")], Json.obj [("status", Json.str "failed")]],
         [some (Json.obj [("status", Json.str "pending")]),
          some (Json.obj [("status", Json.str "failed")])])
    ∧ (wait_aux (fun _ => none) 10 2 0 0 none).2.1
        = changesOnly none (wait_aux (fun _ => none) 10 2 0 0 none).2.2
    ∧ wait_aux (fun _ => some (Json.obj [("status", Json.str "failed")])) 7 1 0 0 none
        = (Except.ok (some (Json.obj [("status", Json.str "failed")])),
           [Json.obj [("status", Json.str "failed")]],
           [some (Json.obj [("status", Json.str "failed")])]) :=
  wait_for_job_change_hook (Json.obj [("status", Json.str "pending")])
    (Json.obj [("status", Json.str "completed")]) (Json.obj [("status", Json.str "failed")])
    3600 (fun _ => none) 10 2 0 0 none
    (fun _ => some (Json.obj [("status", Json.str "failed")])) 7 0 0 0 none
    (Json.obj [("status", Json.str "failed")]) (Json.str "failed")
    rfl rfl rfl (by decide) (by decide) (by omega)
    (by omega) rfl rfl (by decide) rfl (Or.inr rfl)

/-- C5: against a status source that never reports a terminal status (and whose
documents carry a well-formed status field), `wait_for_job` with any finite
timeout terminates with the distinct timed-out result `None` — not a failed
document. -/
theorem wait_for_job_timeout_returns_none (source : Nat → Option Json) (timeout : Nat)
    (h : ∀ i d, source i = some d → d.truthy = true →
        ∃ v, d.getField "status" = some v ∧ terminalStatus v = false) :
    (wait_for_job source timeout).1 = Except.ok none := by
  suffices H : ∀ fuel i t last, (wait_aux source timeout fuel i t last).1 = Except.ok none by
    exact H timeout 0 0 none
  intro fuel
  induction fuel with
  | zero => intro i t last; rfl
  | succ fuel ih =>
    intro i t last
    rw [wait_aux]
    by_cases ht : t < timeout
    · rw [if_pos ht]
      cases hs : source i with
      | none => exact ih (i + 1) (t + 5) last
      | some st =>
        by_cases htr : st.truthy = true
        · obtain ⟨v, hv, hterm⟩ := h i st hs htr
          by_cases hl : some st = last
          · simp only [htr, Bool.not_true, Bool.false_eq_true, if_false, if_pos hl]
            exact ih (i + 1) (t + 5) last
          · simp only [htr, Bool.not_true, Bool.false_eq_true, if_false, if_neg hl, hv,
              hterm, Bool.false_eq_true, if_false]
            exact ih (i + 1) (t + 5) (some st)
        · have htr' : (!st.truthy) = true := by simp [Bool.not_eq_true] at htr ⊢; exact htr
          simp only [htr', if_true]
          exact ih (i + 1) (t + 5) last
    · rw [if_neg ht]

/-- C5 witness: an always-`pending` source times out with `None` at a concrete
finite timeout. -/
theorem wait_for_job_timeout_returns_none_witness :
    (wait_for_job (fun _ => some (Json.obj [("status", Json.str "pending")])) 7).1
      = Except.ok none :=
  wait_for_job_timeout_returns_none (fun _ => some (Json.obj [("status", Json.str "pending")])) 7
    (by
      intro i d hd htr
      cases hd
      exact ⟨Json.str "pending", rfl, by decide⟩)

/-- C9 counterexample input: a syntactically valid remote document with no
`status` field. -/
def statuslessDoc : Json := Json.obj [("note", Json.str "no status field")]

/-- C9 counterexample: when the channel serves a parsed document without a
`status` field, `wait_for_job` — the one caller-facing operation without a
boundary handler — propagates the uncaught `KeyError` from
the status-field access instead of returning a result or failure marker, so the
claim is false as stated. -/
theorem wait_for_job_uncaught_exception :
    (wait_for_job (fun _ => some statuslessDoc) 3600).1 = Except.error () := by
  rfl

/-- C9 (amended): `connect`, `submit_job`, `get_job_status`, `download_results`,
`cleanup_job` and `disconnect` each catch internal errors at the operation
boundary and return their failure/absent markers for every channel behaviour;
`wait_for_job` returns without fault whenever every polled document carries a
`status` field, but has no boundary handler of its own (see the
counterexample). -/
theorem boundary_error_handling (env : SubmitEnv) (function : String)
    (parameters : List (String × Json)) (files : List String) (copyOk : String → Bool)
    (source : Nat → Option Json) (timeout : Nat)
    (hw : env.writeErr = Except.error ())
    (hsafe : ∀ i d, source i = some d → (d.getField "status").isSome) :
    connect (Except.error ()) = false
    ∧ (submit_job env function parameters).jobId = none
    ∧ get_job_status (fun _ => Except.error ()) = none
    ∧ download_results false files false copyOk = false
    ∧ cleanup_job_ok (Except.error ()) = false
    ∧ (cleanup_server_jobs true (Except.error ())).2 = false
    ∧ (wait_for_job source timeout).1 ≠ Except.error () := by
  refine ⟨rfl, ?_, rfl, ?_, rfl, rfl, ?_⟩
  · rw [submit_job, hw]
  · by_cases hf : files = [] ∨ files = [""] <;> simp [download_results, hf]
  · suffices H : ∀ fuel i t last, (wait_aux source timeout fuel i t last).1 ≠ Except.error () by
      exact H timeout 0 0 none
    intro fuel
    induction fuel with
    | zero => intro i t last; simp [wait_aux]
    | succ fuel ih =>
      intro i t last
      rw [wait_aux]
      by_cases ht : t < timeout
      · rw [if_pos ht]
        cases hs : source i with
        | none => exact ih (i + 1) (t + 5) last
        | some st =>
          by_cases htr : st.truthy = true
          · by_cases hl : some st = last
            · simp only [htr, Bool.not_true, Bool.false_eq_true, if_false, if_pos hl]
              exact ih (i + 1) (t + 5) last
            · obtain ⟨v, hv⟩ := Option.isSome_iff_exists.mp (hsafe i st hs)
              by_cases hterm : terminalStatus v = true
              · simp only [htr, Bool.not_true, Bool.false_eq_true, if_false, if_neg hl, hv,
                  hterm, if_true]
                simp
              · simp only [htr, Bool.not_true, Bool.false_eq_true, if_false, if_neg hl, hv,
                  hterm, Bool.false_eq_true, if_false]
                exact ih (i + 1) (t + 5) (some st)
          · have htr' : (!st.truthy) = true := by simp [Bool.not_eq_true] at htr ⊢; exact htr
            simp only [htr', if_true]
            exact ih (i + 1) (t + 5) last
      · rw [if_neg ht]; simp

/-- C9 witness for the amended theorem: concrete failing channels for each
operation and a well-formed always-`pending` source for the poll loop. -/
theorem boundary_error_handling_witness :
    connect (Except.error ()) = false
    ∧ (submit_job { envFailedWrite with writeErr := Except.error () } "polar_circle" []).jobId = none
    ∧ get_job_status (fun _ => Except.error ()) = none
    ∧ download_results false ["a.bin"] false (fun _ => true) = false
    ∧ cleanup_job_ok (Except.error ()) = false
    ∧ (cleanup_server_jobs true (Except.error ())).2 = false
    ∧ (wait_for_job (fun _ => some (Json.obj [("status", Json.str "running")])) 12).1
        ≠ Except.error () :=
  boundary_error_handling { envFailedWrite with writeErr := Except.error () } "polar_circle" []
    ["a.bin"] (fun _ => true) (fun _ => some (Json.obj [("status", Json.str "running")])) 12
    rfl
    (by intro i d hd; cases hd; rfl)

end SatProc
